import Mathlib

/-!
Verification of the Ecomlytics analytics pipeline and its frontend
derivations.  The frontend React pages under `src/frontend` are embedded
directly; the backend analytics pipeline (FastAPI service, not present in
the source tree) is modelled from the specification where noted.

Numbers are modelled by exact rationals `ℚ`; calendar dates by natural-day
indices; records by structures mirroring the CSV/JSON schemas.
-/

namespace Ecomlytics

/-- A churn-scored customer row as received by the churn page
(`src/frontend/src/pages/ChurnAnalysis.jsx`): the fields the page reads. -/
structure Customer where
  customer_id : String
  name : String
  email : String
  churn_probability : ℚ
deriving Repr, DecidableEq

/-- The value returned by `getChurnRiskLevel` in `ChurnAnalysis.jsx`
(lines 58–62): a label together with a badge colour class. -/
structure RiskLevel where
  label : String
  color : String
deriving Repr, DecidableEq

/-- `getChurnRiskLevel` from `ChurnAnalysis.jsx` lines 58–62:
probability ≥ 0.7 → High, ≥ 0.4 → Medium, otherwise Low. -/
def getChurnRiskLevel (probability : ℚ) : RiskLevel :=
  if probability ≥ 0.7 then ⟨"High", "bg-red-100 text-red-700"⟩
  else if probability ≥ 0.4 then ⟨"Medium", "bg-yellow-100 text-yellow-700"⟩
  else ⟨"Low", "bg-green-100 text-green-700"⟩

/-- The "High Risk" stat count of `ChurnAnalysis.jsx` line 126:
`customers.filter(c => c.churn_probability >= 0.7).length`. -/
def highRiskCount (customers : List Customer) : Nat :=
  (customers.filter (fun c => decide (c.churn_probability ≥ 0.7))).length

/-- The "Medium Risk" stat count of `ChurnAnalysis.jsx` line 134:
`customers.filter(c => c.churn_probability >= 0.4 && c.churn_probability < 0.7).length`. -/
def mediumRiskCount (customers : List Customer) : Nat :=
  (customers.filter
    (fun c => decide (c.churn_probability ≥ 0.4) && decide (c.churn_probability < 0.7))).length

/-- The "Low Risk" stat count of `ChurnAnalysis.jsx` line 142:
`customers.filter(c => c.churn_probability < 0.4).length`. -/
def lowRiskCount (customers : List Customer) : Nat :=
  (customers.filter (fun c => decide (c.churn_probability < 0.4))).length

/-- A forecast row as received by the forecasts page (`src/unnamed/part_000`):
the fields the page reads. -/
structure Forecast where
  product_id : String
  product_name : String
  category : String
  forecast_date : String
  predicted_quantity : ℚ
  confidence : String
deriving Repr, DecidableEq

/-- `filteredForecasts` from the forecasts page (`src/unnamed/part_000`
lines 58–60): the full list when the selection is `"all"`, otherwise only
the rows whose `product_id` equals the selection. -/
def filteredForecasts (selectedProduct : String) (forecasts : List Forecast) : List Forecast :=
  if selectedProduct = "all" then forecasts
  else forecasts.filter (fun f => decide (f.product_id = selectedProduct))

/-- The rows rendered in the "Detailed Forecasts" table of the forecasts page
(`src/unnamed/part_000` line 146): `filteredForecasts.slice(0, 20)`. -/
def detailedTableRows (selectedProduct : String) (forecasts : List Forecast) : List Forecast :=
  (filteredForecasts selectedProduct forecasts).take 20

/-- Modelled from the spec: an order record of the backend data model (§3);
the backend service holding it is not in the source tree.  `order_date` is a
natural-day index. -/
structure OrderRec where
  order_date : Nat
  customer_id : String
  product_id : String
  product_name : String
  category : String
  quantity : ℚ
  price : ℚ
deriving Repr, DecidableEq

/-- Modelled from the spec: the KPI snapshot returned by the backend KPI
aggregation (§4.3), which is not in the source tree. -/
structure KPISnapshot where
  total_revenue : ℚ
  total_orders : Nat
  avg_order_value : ℚ
  churn_rate : ℚ
deriving Repr, DecidableEq

/-- Modelled from the spec: backend KPI aggregation (§4.3), not in the source
tree — `total_revenue = Σ(quantity×price)` over the full order history. -/
def total_revenue (orders : List OrderRec) : ℚ :=
  (orders.map (fun o => o.quantity * o.price)).sum

/-- Modelled from the spec: backend KPI aggregation (§4.3), not in the source
tree — `avg_order_value = total_revenue/total_orders` and 0 when no orders. -/
def avg_order_value (orders : List OrderRec) : ℚ :=
  if orders.length = 0 then 0 else total_revenue orders / (orders.length : ℚ)

/-- Modelled from the spec: backend KPI aggregation (§4.3), not in the source
tree — `churn_rate` is the fraction of customers with churn_probability ≥ 0.7
(0 when there are no customers). -/
def churn_rate (customers : List Customer) : ℚ :=
  if customers.length = 0 then 0
  else (highRiskCount customers : ℚ) / (customers.length : ℚ)

/-- Modelled from the spec: the backend KPI computation (§4.3), not in the
source tree, as a pure function of the order history and customer set. -/
def computeKPIs (orders : List OrderRec) (customers : List Customer) : KPISnapshot :=
  { total_revenue := total_revenue orders
    total_orders := orders.length
    avg_order_value := avg_order_value orders
    churn_rate := churn_rate customers }

/-- Modelled from the spec: the per-customer RFM aggregates (§4.5) computed by
the backend churn scorer, which is not in the source tree.  `orderCount` is
Frequency, `recencyDays` days since last purchase, `totalSpent` Monetary. -/
structure RFM where
  orderCount : Nat
  recencyDays : ℚ
  totalSpent : ℚ
deriving Repr, DecidableEq

/-- Minimum of a list of rationals (0 for the empty list). -/
def minOf : List ℚ → ℚ
  | [] => 0
  | x :: xs => xs.foldl min x

/-- Maximum of a list of rationals (0 for the empty list). -/
def maxOf : List ℚ → ℚ
  | [] => 0
  | x :: xs => xs.foldl max x

/-- Modelled from the spec: min-max scaling of one RFM dimension within the
current customer population (§4.5); the backend scorer is not in the source
tree.  A degenerate population (hi = lo) scales to 0. -/
def minmaxScale (v lo hi : ℚ) : ℚ :=
  if hi = lo then 0 else (v - lo) / (hi - lo)

/-- Modelled from the spec: recency risk (§4.5) — days since last purchase
min-max scaled within the population, larger = worse. -/
def recencyRisk (pop : List RFM) (c : RFM) : ℚ :=
  minmaxScale c.recencyDays (minOf (pop.map RFM.recencyDays)) (maxOf (pop.map RFM.recencyDays))

/-- Modelled from the spec: frequency score (§4.5) — order count min-max
scaled within the population, larger = better. -/
def frequencyScore (pop : List RFM) (c : RFM) : ℚ :=
  minmaxScale (c.orderCount : ℚ) (minOf (pop.map (fun r => (r.orderCount : ℚ))))
    (maxOf (pop.map (fun r => (r.orderCount : ℚ))))

/-- Modelled from the spec: monetary score (§4.5) — total spend min-max
scaled within the population, larger = better. -/
def monetaryScore (pop : List RFM) (c : RFM) : ℚ :=
  minmaxScale c.totalSpent (minOf (pop.map RFM.totalSpent)) (maxOf (pop.map RFM.totalSpent))

/-- Clamp a rational to the interval [0, 1]. -/
def clamp01 (x : ℚ) : ℚ := max 0 (min 1 x)

/-- Modelled from the spec: the backend churn score (§4.5), not in the source
tree — `0.5×recency_risk + 0.3×(1 − frequency_score) + 0.2×(1 − monetary_score)`
clamped to [0,1]; a customer with zero orders receives the maximal-risk
fallback score 1. -/
def churnProbability (pop : List RFM) (c : RFM) : ℚ :=
  if c.orderCount = 0 then 1
  else clamp01 (0.5 * recencyRisk pop c + 0.3 * (1 - frequencyScore pop c)
      + 0.2 * (1 - monetaryScore pop c))

/-- Modelled from the spec: mean historical quantity used by the flat
projection of the backend forecaster (§4.4), not in the source tree. -/
def mean (qs : List ℚ) : ℚ :=
  if qs.length = 0 then 0 else qs.sum / (qs.length : ℚ)

/-- Modelled from the spec: OLS slope of quantity against the sequential time
index 0,1,… (§4.4); the backend forecaster is not in the source tree. -/
def olsSlope (qs : List ℚ) : ℚ :=
  let n : ℚ := qs.length
  let sx : ℚ := ((List.range qs.length).map (fun i => (i : ℚ))).sum
  let sxx : ℚ := ((List.range qs.length).map (fun i => (i : ℚ) * (i : ℚ))).sum
  let sxy : ℚ := (qs.enum.map (fun p => (p.1 : ℚ) * p.2)).sum
  (n * sxy - sx * qs.sum) / (n * sxx - sx * sx)

/-- Modelled from the spec: OLS intercept of the fitted linear trend (§4.4);
the backend forecaster is not in the source tree. -/
def olsIntercept (qs : List ℚ) : ℚ :=
  let sx : ℚ := ((List.range qs.length).map (fun i => (i : ℚ))).sum
  (qs.sum - olsSlope qs * sx) / (qs.length : ℚ)

/-- Modelled from the spec: the raw projected quantity at time index `t`
(§4.4) — the fitted trend, degrading to the mean historical quantity (flat
projection) when fewer than 2 distinct historical periods exist. -/
def projectedQuantity (qs : List ℚ) (t : Nat) : ℚ :=
  if qs.length < 2 then mean qs
  else olsIntercept qs + olsSlope qs * (t : ℚ)

/-- Modelled from the spec: the categorical confidence label (§4.4), derived
from the amount of historical data available. -/
def confidenceLabel (periods : Nat) : String :=
  if periods ≥ 14 then "High" else if periods ≥ 7 then "Medium" else "Low"

/-- Modelled from the spec: one forecast record of the backend forecaster
(§4.4), not in the source tree; `forecast_date` is a natural-day index. -/
structure ForecastOut where
  product_id : String
  forecast_date : Nat
  predicted_quantity : ℚ
  confidence : String
deriving Repr, DecidableEq

/-- Modelled from the spec: the backend per-product forecasting stage (§4.4),
not in the source tree.  `qs` is the product's historical per-period quantity
series (time indices 0,…,n−1) and `lastOrderDate` its latest known order
date; the stage projects 7 consecutive days starting the day after, flooring
negative projections at zero. -/
def forecastProduct (pid : String) (qs : List ℚ) (lastOrderDate : Nat) : List ForecastOut :=
  (List.range 7).map (fun k =>
    { product_id := pid
      forecast_date := lastOrderDate + 1 + k
      predicted_quantity := max 0 (projectedQuantity qs (qs.length + k))
      confidence := confidenceLabel qs.length })

/-- Modelled from the spec: an inventory item of the backend data model (§3);
the backend service holding it is not in the source tree. -/
structure InventoryItem where
  product_id : String
  product_name : String
  category : String
  current_stock : ℚ
  reorder_point : ℚ
  unit_cost : ℚ
deriving Repr, DecidableEq

/-- Modelled from the spec: the derived inventory recommendation (§4.6)
returned by the backend, which is not in the source tree. -/
structure InventoryRecommendation where
  product_id : String
  predicted_demand : ℚ
  needs_reorder : Bool
  recommended_order_qty : ℚ
deriving Repr, DecidableEq

/-- Modelled from the spec: `predicted_demand` (§4.6) — the sum of the item's
forecasted quantities over the 7-day window, 0 if the product has no
forecast; the backend is not in the source tree. -/
def predicted_demand (forecasts : List ForecastOut) (item : InventoryItem) : ℚ :=
  ((forecasts.filter (fun f => decide (f.product_id = item.product_id))).map
    ForecastOut.predicted_quantity).sum

/-- Modelled from the spec: `needs_reorder = current_stock ≤ reorder_point`
(§4.6); the backend is not in the source tree. -/
def needs_reorder (item : InventoryItem) : Bool :=
  decide (item.current_stock ≤ item.reorder_point)

/-- Modelled from the spec: `recommended_order_qty` (§4.6) —
`max(0, predicted_demand + reorder_point − current_stock)` when reorder is
needed, else 0; the backend is not in the source tree. -/
def recommended_order_qty (forecasts : List ForecastOut) (item : InventoryItem) : ℚ :=
  if needs_reorder item then
    max 0 (predicted_demand forecasts item + item.reorder_point - item.current_stock)
  else 0

/-- Modelled from the spec: the backend inventory recommendation for one item
(§4.6), not in the source tree. -/
def recommendItem (forecasts : List ForecastOut) (item : InventoryItem) : InventoryRecommendation :=
  { product_id := item.product_id
    predicted_demand := predicted_demand forecasts item
    needs_reorder := needs_reorder item
    recommended_order_qty := recommended_order_qty forecasts item }

/-- Modelled from the spec: a raw customers-CSV row (§3/§6); the backend
ingestion service is not in the source tree. -/
structure CustomerRec where
  customer_id : String
  name : String
  email : String
  join_date : String
deriving Repr, DecidableEq

/-- Modelled from the spec: the cleaning stage's deduplication by natural key
keeping the last-seen record (§4.2); the backend cleaner is not in the source
tree.  A record is kept exactly when no later record shares its
`customer_id`. -/
def dedupKeepLast : List CustomerRec → List CustomerRec
  | [] => []
  | c :: rest =>
    if rest.any (fun d => decide (d.customer_id = c.customer_id)) then dedupKeepLast rest
    else c :: dedupKeepLast rest

/-! ### Helper lemmas -/

lemma label_high_iff (p : ℚ) : (getChurnRiskLevel p).label = "High" ↔ 0.7 ≤ p := by
  unfold getChurnRiskLevel
  by_cases h1 : (0.7 : ℚ) ≤ p
  · simp [ge_iff_le, h1]
  · by_cases h2 : (0.4 : ℚ) ≤ p <;> simp [ge_iff_le, h1, h2]

lemma label_medium_iff (p : ℚ) :
    (getChurnRiskLevel p).label = "Medium" ↔ 0.4 ≤ p ∧ p < 0.7 := by
  unfold getChurnRiskLevel
  by_cases h1 : (0.7 : ℚ) ≤ p
  · simp [ge_iff_le, h1, not_lt.mpr h1]
  · by_cases h2 : (0.4 : ℚ) ≤ p <;> simp [ge_iff_le, h1, h2, lt_iff_not_le]

lemma label_low_iff (p : ℚ) : (getChurnRiskLevel p).label = "Low" ↔ p < 0.4 := by
  unfold getChurnRiskLevel
  by_cases h1 : (0.7 : ℚ) ≤ p
  · have : ¬ p < 0.4 := not_lt.mpr (le_trans (by norm_num) h1)
    simp [ge_iff_le, h1, this]
  · by_cases h2 : (0.4 : ℚ) ≤ p <;> simp [ge_iff_le, h1, h2, lt_iff_not_le]

lemma high_count_eq_label_count (customers : List Customer) :
    highRiskCount customers
      = (customers.filter
          (fun c => decide ((getChurnRiskLevel c.churn_probability).label = "High"))).length := by
  unfold highRiskCount
  congr 1
  refine List.filter_congr (fun c _ => ?_)
  rw [decide_eq_decide]
  exact (ge_iff_le.trans (label_high_iff c.churn_probability).symm)

lemma medium_count_eq_label_count (customers : List Customer) :
    mediumRiskCount customers
      = (customers.filter
          (fun c => decide ((getChurnRiskLevel c.churn_probability).label = "Medium"))).length := by
  unfold mediumRiskCount
  congr 1
  refine List.filter_congr (fun c _ => ?_)
  rw [Bool.and_eq_decide, decide_eq_decide]
  exact (and_congr ge_iff_le Iff.rfl).trans (label_medium_iff c.churn_probability).symm

lemma low_count_eq_label_count (customers : List Customer) :
    lowRiskCount customers
      = (customers.filter
          (fun c => decide ((getChurnRiskLevel c.churn_probability).label = "Low"))).length := by
  unfold lowRiskCount
  congr 1
  refine List.filter_congr (fun c _ => ?_)
  rw [decide_eq_decide]
  exact (label_low_iff c.churn_probability).symm

lemma risk_counts_sum (customers : List Customer) :
    highRiskCount customers + mediumRiskCount customers + lowRiskCount customers
      = customers.length := by
  induction customers with
  | nil => rfl
  | cons c cs ih =>
    by_cases h1 : (0.7 : ℚ) ≤ c.churn_probability
    · have h2 : ¬ c.churn_probability < 0.7 := not_lt.mpr h1
      have h3 : ¬ c.churn_probability < 0.4 := not_lt.mpr (le_trans (by norm_num) h1)
      simp [highRiskCount, mediumRiskCount, lowRiskCount, List.filter_cons, ge_iff_le,
        h1, h2, h3] at ih ⊢
      omega
    · by_cases h2 : (0.4 : ℚ) ≤ c.churn_probability
      · have h3 : c.churn_probability < 0.7 := lt_of_not_le h1
        have h4 : ¬ c.churn_probability < 0.4 := not_lt.mpr h2
        simp [highRiskCount, mediumRiskCount, lowRiskCount, List.filter_cons, ge_iff_le,
          h1, h2, h3, h4] at ih ⊢
        omega
      · have h3 : c.churn_probability < 0.4 := lt_of_not_le h2
        simp [highRiskCount, mediumRiskCount, lowRiskCount, List.filter_cons, ge_iff_le,
          h1, h2, h3] at ih ⊢
        omega

/-! ### Claim theorems -/

/-- C1: the churn risk label is determined solely by `churn_probability` with
the shared thresholds — probability ≥ 0.7 is High, ≥ 0.4 (and < 0.7) is
Medium, otherwise Low; the per-row label function `getChurnRiskLevel`, the
High/Medium/Low stat counts, and the modelled dashboard `churn_rate` all
agree on these thresholds, and a customer with probability exactly 0.7 is
High everywhere. -/
theorem churn_thresholds_shared (customers : List Customer) (p : ℚ) :
    ((getChurnRiskLevel p).label = "High" ↔ 0.7 ≤ p)
    ∧ ((getChurnRiskLevel p).label = "Medium" ↔ 0.4 ≤ p ∧ p < 0.7)
    ∧ ((getChurnRiskLevel p).label = "Low" ↔ p < 0.4)
    ∧ highRiskCount customers
        = (customers.filter
            (fun c => decide ((getChurnRiskLevel c.churn_probability).label = "High"))).length
    ∧ mediumRiskCount customers
        = (customers.filter
            (fun c => decide ((getChurnRiskLevel c.churn_probability).label = "Medium"))).length
    ∧ lowRiskCount customers
        = (customers.filter
            (fun c => decide ((getChurnRiskLevel c.churn_probability).label = "Low"))).length
    ∧ churn_rate customers
        = (if customers.length = 0 then 0
           else ((customers.filter
              (fun c => decide ((getChurnRiskLevel c.churn_probability).label = "High"))).length
                : ℚ) / (customers.length : ℚ))
    ∧ (getChurnRiskLevel 0.7).label = "High" := by
  refine ⟨label_high_iff p, label_medium_iff p, label_low_iff p,
    high_count_eq_label_count customers, medium_count_eq_label_count customers,
    low_count_eq_label_count customers, ?_, (label_high_iff 0.7).mpr le_rfl⟩
  unfold churn_rate
  rw [high_count_eq_label_count customers]

/-- C9: the three churn stat buckets partition every customer list — each
customer falls in exactly one of High (≥ 0.7), Medium (≥ 0.4 and < 0.7), or
Low (< 0.4), and the three displayed counts sum to the total number of
customers. -/
theorem churn_buckets_partition (customers : List Customer) :
    highRiskCount customers + mediumRiskCount customers + lowRiskCount customers
      = customers.length
    ∧ ∀ p : ℚ,
        (0.7 ≤ p ∧ ¬(0.4 ≤ p ∧ p < 0.7) ∧ ¬p < 0.4)
        ∨ (¬0.7 ≤ p ∧ (0.4 ≤ p ∧ p < 0.7) ∧ ¬p < 0.4)
        ∨ (¬0.7 ≤ p ∧ ¬(0.4 ≤ p ∧ p < 0.7) ∧ p < 0.4) := by
  refine ⟨risk_counts_sum customers, fun p => ?_⟩
  by_cases h1 : (0.7 : ℚ) ≤ p
  · exact Or.inl ⟨h1, fun h => absurd h1 (not_le.mpr h.2),
      not_lt.mpr (le_trans (by norm_num) h1)⟩
  · by_cases h2 : (0.4 : ℚ) ≤ p
    · exact Or.inr (Or.inl ⟨h1, ⟨h2, lt_of_not_le h1⟩, not_lt.mpr h2⟩)
    · exact Or.inr (Or.inr ⟨h1, fun h => h2 h.1, lt_of_not_le h2⟩)

/-- C10: the detailed forecast table renders at most the first 20 entries of
the filtered list; the filter is the identity when the selection is `"all"`
and otherwise keeps exactly the rows whose `product_id` equals the
selection. -/
theorem forecast_table_first_twenty (sel : String) (fs : List Forecast) :
    detailedTableRows sel fs = (filteredForecasts sel fs).take 20
    ∧ (detailedTableRows sel fs).length ≤ 20
    ∧ (sel = "all" → filteredForecasts sel fs = fs)
    ∧ (sel ≠ "all" →
        filteredForecasts sel fs = fs.filter (fun f => decide (f.product_id = sel))) := by
  refine ⟨rfl, ?_, fun h => ?_, fun h => ?_⟩
  · unfold detailedTableRows
    rw [List.length_take]
    exact min_le_left _ _
  · simp [filteredForecasts, h]
  · simp [filteredForecasts, h]

/-- Witness for C10 at concrete inputs: with the selection `"P2"` and a
two-row forecast list, only the matching row survives the filter. -/
theorem forecast_table_first_twenty_witness :
    filteredForecasts "P2"
        [{ product_id := "P1", product_name := "A", category := "c", forecast_date := "d1",
           predicted_quantity := 3, confidence := "High" },
         { product_id := "P2", product_name := "B", category := "c", forecast_date := "d1",
           predicted_quantity := 4, confidence := "Low" }]
      = [{ product_id := "P2", product_name := "B", category := "c", forecast_date := "d1",
           predicted_quantity := 4, confidence := "Low" }] := by
  rw [(forecast_table_first_twenty "P2" _).2.2.2 (by decide)]
  decide

lemma clamp01_nonneg (x : ℚ) : 0 ≤ clamp01 x := le_max_left 0 _

lemma clamp01_le_one (x : ℚ) : clamp01 x ≤ 1 :=
  max_le (by norm_num) (min_le_left 1 x)

/-- C2: `churn_probability` is always a well-defined number in [0,1]; a
customer with a nonzero order count receives the clamped weighted RFM
combination `0.5·recency_risk + 0.3·(1 − frequency_score) +
0.2·(1 − monetary_score)`, and a zero-order customer receives the
maximal-risk fallback score 1.  (In the exact-rational model no expression
is NaN and every division is total.) -/
theorem churn_probability_well_defined (pop : List RFM) (c : RFM) :
    0 ≤ churnProbability pop c ∧ churnProbability pop c ≤ 1
    ∧ (c.orderCount = 0 → churnProbability pop c = 1)
    ∧ (c.orderCount ≠ 0 →
        churnProbability pop c
          = clamp01 (0.5 * recencyRisk pop c + 0.3 * (1 - frequencyScore pop c)
              + 0.2 * (1 - monetaryScore pop c))) := by
  unfold churnProbability
  by_cases h : c.orderCount = 0
  · simp [h]
  · simp [h, clamp01_nonneg, clamp01_le_one]

/-- Witness for C2 at a concrete population: a zero-order customer receives
the fallback score 1. -/
theorem churn_probability_well_defined_witness :
    churnProbability [⟨0, 400, 0⟩, ⟨5, 2, 100⟩] ⟨0, 400, 0⟩ = 1 :=
  (churn_probability_well_defined [⟨0, 400, 0⟩, ⟨5, 2, 100⟩] ⟨0, 400, 0⟩).2.2.1 rfl

/-- C5: KPI aggregation returns `total_revenue = Σ quantity·price`,
`total_orders` = the order count, `avg_order_value` = revenue divided by
count for a non-empty order set and 0 for an empty one; hence for every
non-empty order set `avg_order_value · total_orders = total_revenue`
(exactly, in the rational model). -/
theorem kpi_aggregation_correct (orders : List OrderRec) (customers : List Customer) :
    (computeKPIs orders customers).total_revenue
        = (orders.map (fun o => o.quantity * o.price)).sum
    ∧ (computeKPIs orders customers).total_orders = orders.length
    ∧ (orders.length = 0 → (computeKPIs orders customers).avg_order_value = 0)
    ∧ (orders.length ≠ 0 →
        (computeKPIs orders customers).avg_order_value * (orders.length : ℚ)
          = (computeKPIs orders customers).total_revenue) := by
  refine ⟨rfl, rfl, fun h => ?_, fun h => ?_⟩
  · simp [computeKPIs, avg_order_value, h]
  · have hn : ((orders.length : ℚ)) ≠ 0 := Nat.cast_ne_zero.mpr h
    simp only [computeKPIs, avg_order_value, h, if_false]
    exact div_mul_cancel₀ _ hn

/-- Witness for C5 at a concrete one-order set: the average order value times
the order count recovers the revenue. -/
theorem kpi_aggregation_correct_witness :
    (computeKPIs [⟨0, "C1", "P1", "A", "c", 2, 5⟩] []).avg_order_value * ((1 : Nat) : ℚ)
      = (computeKPIs [⟨0, "C1", "P1", "A", "c", 2, 5⟩] []).total_revenue :=
  (kpi_aggregation_correct [⟨0, "C1", "P1", "A", "c", 2, 5⟩] []).2.2.2 (by decide)

/-- C6: in the empty-data state the KPI computation succeeds and returns the
zero-valued snapshot — total_revenue 0, total_orders 0, avg_order_value 0,
churn_rate 0 — rather than an error (the computation is total). -/
theorem kpis_empty_state :
    computeKPIs [] []
      = { total_revenue := 0, total_orders := 0, avg_order_value := 0, churn_rate := 0 } :=
  rfl

/-- C7: each inventory recommendation satisfies
`needs_reorder ↔ current_stock ≤ reorder_point`; `predicted_demand` is the
sum of the product's forecasted quantities (0 when the product has no
forecast); and `recommended_order_qty` equals
`max 0 (predicted_demand + reorder_point − current_stock)` when reorder is
needed and 0 otherwise. -/
theorem inventory_recommendation_correct (forecasts : List ForecastOut) (item : InventoryItem) :
    ((recommendItem forecasts item).needs_reorder = true
        ↔ item.current_stock ≤ item.reorder_point)
    ∧ (recommendItem forecasts item).predicted_demand
        = ((forecasts.filter (fun f => decide (f.product_id = item.product_id))).map
            ForecastOut.predicted_quantity).sum
    ∧ ((∀ f ∈ forecasts, f.product_id ≠ item.product_id) →
        (recommendItem forecasts item).predicted_demand = 0)
    ∧ ((recommendItem forecasts item).needs_reorder = true →
        (recommendItem forecasts item).recommended_order_qty
          = max 0 ((recommendItem forecasts item).predicted_demand + item.reorder_point
              - item.current_stock))
    ∧ ((recommendItem forecasts item).needs_reorder = false →
        (recommendItem forecasts item).recommended_order_qty = 0) := by
  refine ⟨?_, rfl, fun h => ?_, fun h => ?_, fun h => ?_⟩
  · simp [recommendItem, needs_reorder]
  · have hf : forecasts.filter (fun f => decide (f.product_id = item.product_id)) = [] :=
      List.filter_eq_nil_iff.mpr (fun f hfm => by simpa using h f hfm)
    simp [recommendItem, predicted_demand, hf]
  · simp only [recommendItem] at h ⊢
    simp [recommended_order_qty, h, predicted_demand]
  · simp only [recommendItem] at h ⊢
    simp [recommended_order_qty, h]

/-- Witness for C7 at concrete inputs: an item with no matching forecast has
predicted demand 0. -/
theorem inventory_recommendation_correct_witness :
    (recommendItem [⟨"Q", 3, 2, "Low"⟩] ⟨"P", "A", "c", 5, 10, 1⟩).predicted_demand = 0 :=
  (inventory_recommendation_correct [⟨"Q", 3, 2, "Low"⟩] ⟨"P", "A", "c", 5, 10, 1⟩).2.2.1
    (by decide)

lemma forecastProduct_dates (pid : String) (qs : List ℚ) (lastOrderDate : Nat) :
    (forecastProduct pid qs lastOrderDate).map ForecastOut.forecast_date
      = [lastOrderDate + 1, lastOrderDate + 2, lastOrderDate + 3, lastOrderDate + 4,
         lastOrderDate + 5, lastOrderDate + 6, lastOrderDate + 7] := by
  have hr : List.range 7 = [0, 1, 2, 3, 4, 5, 6] := by decide
  simp [forecastProduct, hr]

/-- C3: for a product with any order history, the forecasting stage outputs
exactly 7 records whose forecast dates are the strictly increasing
consecutive calendar days beginning the day after the latest known order
date. -/
theorem forecast_seven_consecutive_days (pid : String) (qs : List ℚ) (lastOrderDate : Nat)
    (_hq : qs ≠ []) :
    (forecastProduct pid qs lastOrderDate).length = 7
    ∧ (forecastProduct pid qs lastOrderDate).map ForecastOut.forecast_date
        = [lastOrderDate + 1, lastOrderDate + 2, lastOrderDate + 3, lastOrderDate + 4,
           lastOrderDate + 5, lastOrderDate + 6, lastOrderDate + 7]
    ∧ ((forecastProduct pid qs lastOrderDate).map ForecastOut.forecast_date).Pairwise (· < ·) := by
  refine ⟨by simp [forecastProduct], forecastProduct_dates pid qs lastOrderDate, ?_⟩
  rw [forecastProduct_dates pid qs lastOrderDate]
  simp [List.pairwise_cons, List.forall_mem_cons]


/-- Witness for C3 at a concrete two-period history: the forecast has exactly
7 records. -/
theorem forecast_seven_consecutive_days_witness :
    (forecastProduct "P" [(1 : ℚ), 2] 9).length = 7 :=
  (forecast_seven_consecutive_days "P" [(1 : ℚ), 2] 9 (by simp)).1

/-- C4: forecasting is total and never emits a negative predicted quantity —
with fewer than 2 historical periods every one of the 7 projected quantities
equals the mean historical quantity (flat projection), and in all cases every
`predicted_quantity` is ≥ 0 (negative projections are floored at zero). -/
theorem forecast_total_and_nonneg (pid : String) (qs : List ℚ) (lastOrderDate : Nat)
    (hq : ∀ q ∈ qs, 0 ≤ q) :
    (∀ r ∈ forecastProduct pid qs lastOrderDate, 0 ≤ r.predicted_quantity)
    ∧ (qs.length < 2 →
        ∀ r ∈ forecastProduct pid qs lastOrderDate, r.predicted_quantity = mean qs) := by
  have hmean : 0 ≤ mean qs := by
    unfold mean
    split
    · exact le_refl 0
    · exact div_nonneg (List.sum_nonneg hq) (Nat.cast_nonneg _)
  constructor
  · intro r hr
    simp only [forecastProduct, List.mem_map, List.mem_range] at hr
    obtain ⟨k, hk, rfl⟩ := hr
    exact le_max_left 0 _
  · intro hlen r hr
    simp only [forecastProduct, List.mem_map, List.mem_range] at hr
    obtain ⟨k, hk, rfl⟩ := hr
    show max 0 (projectedQuantity qs (qs.length + k)) = mean qs
    rw [projectedQuantity, if_pos hlen]
    exact max_eq_right hmean

/-- Witness for C4 at a concrete one-period history: the kept forecast record
carries the flat mean projection. -/
theorem forecast_total_and_nonneg_witness :
    (⟨"P", 1, 3, "Low"⟩ : ForecastOut).predicted_quantity = mean [(3 : ℚ)] :=
  (forecast_total_and_nonneg "P" [(3 : ℚ)] 0 (by norm_num)).2 (by norm_num)
    ⟨"P", 1, 3, "Low"⟩
    (by
      refine List.mem_map.mpr ⟨0, by simp, ?_⟩
      norm_num [projectedQuantity, mean, confidenceLabel])

lemma getLast?_cons_of_ne_nil (a : CustomerRec) {l : List CustomerRec} (h : l ≠ []) :
    (a :: l).getLast? = l.getLast? := by
  cases l with
  | nil => exact absurd rfl h
  | cons b t => exact List.getLast?_cons_cons

lemma mem_of_mem_dedupKeepLast {l : List CustomerRec} {c : CustomerRec}
    (h : c ∈ dedupKeepLast l) : c ∈ l := by
  induction l with
  | nil => simp [dedupKeepLast] at h
  | cons a rest ih =>
    by_cases hb : rest.any (fun d => decide (d.customer_id = a.customer_id)) = true
    · simp only [dedupKeepLast] at h
      rw [if_pos hb] at h
      exact List.mem_cons_of_mem a (ih h)
    · simp only [dedupKeepLast] at h
      rw [if_neg hb] at h
      rcases List.mem_cons.mp h with rfl | hmem
      · exact List.mem_cons_self c rest
      · exact List.mem_cons_of_mem a (ih hmem)

lemma mem_keys_dedupKeepLast {l : List CustomerRec} {k : String} :
    k ∈ (dedupKeepLast l).map CustomerRec.customer_id
      ↔ k ∈ l.map CustomerRec.customer_id := by
  induction l with
  | nil => simp [dedupKeepLast]
  | cons a rest ih =>
    by_cases hb : rest.any (fun d => decide (d.customer_id = a.customer_id)) = true
    · simp only [dedupKeepLast]
      rw [if_pos hb]
      simp only [List.map_cons, List.mem_cons]
      constructor
      · exact fun h => Or.inr (ih.mp h)
      · rintro (rfl | h)
        · obtain ⟨d, hd, hid⟩ : ∃ d ∈ rest, d.customer_id = a.customer_id := by simpa using hb
          exact ih.mpr (List.mem_map.mpr ⟨d, hd, hid⟩)
        · exact ih.mpr h
    · simp only [dedupKeepLast]
      rw [if_neg hb]
      simp only [List.map_cons, List.mem_cons]
      exact or_congr Iff.rfl ih

lemma keys_nodup_dedupKeepLast (l : List CustomerRec) :
    ((dedupKeepLast l).map CustomerRec.customer_id).Nodup := by
  induction l with
  | nil => simp [dedupKeepLast]
  | cons a rest ih =>
    by_cases hb : rest.any (fun d => decide (d.customer_id = a.customer_id)) = true
    · simp only [dedupKeepLast]
      rw [if_pos hb]
      exact ih
    · simp only [dedupKeepLast]
      rw [if_neg hb]
      simp only [List.map_cons, List.nodup_cons]
      refine ⟨fun hmem => ?_, ih⟩
      obtain ⟨d, hd, hid⟩ := List.mem_map.mp (mem_keys_dedupKeepLast.mp hmem)
      exact hb (List.any_eq_true.mpr ⟨d, hd, by simp [hid]⟩)

lemma dedupKeepLast_last_seen {l : List CustomerRec} {c : CustomerRec}
    (h : c ∈ dedupKeepLast l) :
    (l.filter (fun d => decide (d.customer_id = c.customer_id))).getLast? = some c := by
  induction l with
  | nil => simp [dedupKeepLast] at h
  | cons a rest ih =>
    by_cases hb : rest.any (fun d => decide (d.customer_id = a.customer_id)) = true
    · simp only [dedupKeepLast] at h
      rw [if_pos hb] at h
      rw [List.filter_cons]
      by_cases hac : a.customer_id = c.customer_id
      · obtain ⟨d, hd, hid⟩ : ∃ d ∈ rest, d.customer_id = a.customer_id := by simpa using hb
        have hne : rest.filter (fun d => decide (d.customer_id = c.customer_id)) ≠ [] := by
          intro hnil
          have := List.filter_eq_nil_iff.mp hnil d hd
          simp [hid, hac] at this
        rw [if_pos (by simp [hac]), getLast?_cons_of_ne_nil a hne]
        exact ih h
      · rw [if_neg (by simp [hac])]
        exact ih h
    · simp only [dedupKeepLast] at h
      rw [if_neg hb] at h
      rcases List.mem_cons.mp h with rfl | hmem
      · have hfil : rest.filter (fun d => decide (d.customer_id = c.customer_id)) = [] := by
          refine List.filter_eq_nil_iff.mpr (fun d hd => ?_)
          simp only [decide_eq_true_eq]
          intro heq
          exact hb (List.any_eq_true.mpr ⟨d, hd, by simp [heq]⟩)
        rw [List.filter_cons, if_pos (by simp), hfil]
        rfl
      · have hc : c ∈ rest := mem_of_mem_dedupKeepLast hmem
        have hac : ¬ a.customer_id = c.customer_id := by
          intro heq
          exact hb (List.any_eq_true.mpr ⟨c, hc, by simp [heq]⟩)
        rw [List.filter_cons, if_neg (by simp [hac])]
        exact ih hmem

lemma dedupKeepLast_append_covered {l₁ l₂ : List CustomerRec}
    (h : ∀ c ∈ l₁, ∃ d ∈ l₂, d.customer_id = c.customer_id) :
    dedupKeepLast (l₁ ++ l₂) = dedupKeepLast l₂ := by
  induction l₁ with
  | nil => rfl
  | cons a t ih =>
    obtain ⟨d, hd, hid⟩ := h a (List.mem_cons_self a t)
    have hb : (t ++ l₂).any (fun e => decide (e.customer_id = a.customer_id)) = true :=
      List.any_eq_true.mpr ⟨d, List.mem_append_right t hd, by simp [hid]⟩
    rw [List.cons_append]
    simp only [dedupKeepLast]
    rw [if_pos hb]
    exact ih (fun c hc => h c (List.mem_cons_of_mem a hc))

/-- C8: cleaning deduplicates by natural key keeping the last-seen record —
the materialized set has exactly one record per distinct `customer_id`
(its keys are duplicate-free and cover exactly the uploaded ids), the record
kept for each id is the last-seen one, and re-uploading the same customers
rows again (duplicating every id) yields the same materialized set. -/
theorem customers_dedup_last_seen (l : List CustomerRec) :
    dedupKeepLast (l ++ l) = dedupKeepLast l
    ∧ ((dedupKeepLast l).map CustomerRec.customer_id).Nodup
    ∧ (∀ k : String, k ∈ (dedupKeepLast l).map CustomerRec.customer_id
        ↔ k ∈ l.map CustomerRec.customer_id)
    ∧ (∀ c ∈ dedupKeepLast l,
        (l.filter (fun d => decide (d.customer_id = c.customer_id))).getLast? = some c) :=
  ⟨dedupKeepLast_append_covered (fun c hc => ⟨c, hc, rfl⟩),
    keys_nodup_dedupKeepLast l,
    fun _ => mem_keys_dedupKeepLast,
    fun _ hc => dedupKeepLast_last_seen hc⟩

/-- Witness for C8 at a concrete upload with a duplicated id: the kept record
with id "C1" is the last-seen one. -/
theorem customers_dedup_last_seen_witness :
    (([⟨"C1", "a", "e1", "j1"⟩, ⟨"C1", "b", "e2", "j2"⟩] : List CustomerRec).filter
        (fun d => decide
          (d.customer_id = (⟨"C1", "b", "e2", "j2"⟩ : CustomerRec).customer_id))).getLast?
      = some ⟨"C1", "b", "e2", "j2"⟩ :=
  (customers_dedup_last_seen [⟨"C1", "a", "e1", "j1"⟩, ⟨"C1", "b", "e2", "j2"⟩]).2.2.2
    ⟨"C1", "b", "e2", "j2"⟩ (by simp [dedupKeepLast])

/-- Witness for C1: at probability exactly 0.7, the per-row label function
yields High. -/
theorem churn_thresholds_shared_witness : (getChurnRiskLevel 0.7).label = "High" :=
  (churn_thresholds_shared [] 0.7).2.2.2.2.2.2.2

/-- Witness for C9 at the empty customer list: the three bucket counts sum
to the list length. -/
theorem churn_buckets_partition_witness :
    highRiskCount [] + mediumRiskCount [] + lowRiskCount [] = ([] : List Customer).length :=
  (churn_buckets_partition []).1

end Ecomlytics
